import Mathlib

/-!
Shallow embedding of the AutoTrader checker (src/check_cars.py) and proofs
about its specification claims.

Python strings are modelled as Lean `String` (a list of unicode scalar
values, matching Python's code-point semantics for `len` and slicing).
Python `set[str]` is modelled as `Finset String`.  Python dicts that map
car ids to listing dictionaries are modelled as association lists with
insert-or-update semantics.  Fallible I/O (HTTP fetch, Telegram dispatch,
state-file read/write) is modelled by explicit outcome parameters threaded
through the functions, and Python exceptions by `Except` / `Option`
results.
-/

set_option maxRecDepth 100000

namespace CheckCars

/-! ### String helpers (models of Python `str` operations) -/

/-- Model of Python `str.lower`: lower-case every character. -/
def strLower (s : String) : String := ⟨s.data.map Char.toLower⟩

/-- `begWith p l` : the char list `p` occurs at the very start of `l`
(model of the anchored part of Python substring search). -/
def begWith : List Char → List Char → Bool
  | [], _ => true
  | _ :: _, [] => false
  | a :: as, b :: bs => a == b && begWith as bs

/-- `hasSub n h` : the char list `n` occurs contiguously somewhere in `h`. -/
def hasSub (n : List Char) : List Char → Bool
  | [] => n.isEmpty
  | c :: t => begWith n (c :: t) || hasSub n t

/-- Model of Python `needle in haystack` for strings. -/
def containsSub (needle haystack : String) : Bool :=
  hasSub needle.data haystack.data

/-- Number of (possibly overlapping) occurrences of `p` in a char list. -/
def countOccs (p : List Char) : List Char → Nat
  | [] => if p.isEmpty then 1 else 0
  | c :: t => (if begWith p (c :: t) then 1 else 0) + countOccs p t

/-- Concatenation of a list of messages (model of joining all sent texts). -/
def concatMsgs : List String → String
  | [] => ""
  | m :: rest => m ++ concatMsgs rest

/-! ### Data model -/

/-- One discovered listing, with the six fields built by
`fetch_autotrader_cars` in the source. -/
structure Car where
  title : String
  details : String
  cost : String
  description : String
  attention_grabber : String
  url : String
deriving DecidableEq

/-- The persisted JSON object: one field `car_ids`, an array of strings. -/
structure SeenFile where
  car_ids : List String
deriving DecidableEq

/-- Content of the state file: either unparsable JSON or the parsed object. -/
inductive FileData where
  | corrupt
  | parsed (f : SeenFile)
deriving DecidableEq

/-- The state file on disk: `none` when the file does not exist. -/
abbrev FileState := Option FileData

/-- The raw data of one listing on a result page, after BeautifulSoup has
paired the five parallel block collections by position (`zip`) and the
title link has been located.  `href` is the optional relative link of the
title anchor. -/
structure RawListing where
  title : String
  details : String
  cost : String
  description : String
  attention_grabber : String
  href : Option String
deriving DecidableEq

/-- Outcome of fetching one result page: the HTTP/parse step either raises
or yields the listing tuples of that page. -/
inductive PageFetch where
  | fail
  | ok (listings : List RawListing)
deriving DecidableEq

/-- Outcome of the pagination-discovery fetch in `get_pages`: the fetch can
raise, the `paginationMini__count` element can be absent, or it is present
and `s` is the string the trailing-integer regex is run over. -/
inductive DiscoveryOutcome where
  | fetchFail
  | noPaginationElem
  | paginationElem (s : String)

/-! ### Configuration check and notification (startup / notify) -/

/-- Python truthiness of an optional environment string: `None` and the
empty string are falsy. -/
def falsy : Option String → Bool
  | none => true
  | some s => s.isEmpty

/-- `startup` from the source: raises `ValueError` when `BOT_TOKEN` or
`CHAT_ID` is unset or empty. -/
def startup (bot chat : Option String) : Except String Unit :=
  if falsy bot || falsy chat then
    .error "BOT_TOKEN and CHAT_ID environment variables must be set."
  else .ok ()

/-- `notify` from the source: first calls `startup` (which may raise), then
posts to the Telegram API; `transport` says whether that HTTP call plus the
`ok` check of the response succeeds.  Any failure re-raises. -/
def notify (bot chat : Option String) (transport : Bool) (_msg : String) :
    Except String Unit :=
  match startup bot chat with
  | .error e => .error e
  | .ok _ => if transport then .ok () else .error "Telegram API error"

/-- The `for i, message in enumerate(messages): notify(message)` loop inside
`main`'s try block: messages are sent in order; the first failing `notify`
raises, which aborts the loop (messages already sent stay sent).  Returns
the successfully dispatched messages and whether the loop finished without
an exception. -/
def sendLoop (bot chat : Option String) (transport : Nat → Bool) :
    List String → Nat → List String × Bool
  | [], _ => ([], true)
  | m :: rest, i =>
    match notify bot chat (transport i) m with
    | .error _ => ([], false)
    | .ok _ =>
      let r := sendLoop bot chat transport rest (i + 1)
      (m :: r.1, r.2)

/-! ### Sorted enumeration of a string set

Python's `sorted(set_of_str)` (and, in the model, `list(set_of_str)`) is
the code-point-lexicographically sorted list of the elements, which is
exactly how Python compares `str` values.  The comparison and the sort are
structurally recursive so that they evaluate inside the kernel. -/

/-- Python's `<=` on strings, as code-point lexicographic comparison of
the character lists. -/
def charListLe : List Char → List Char → Bool
  | [], _ => true
  | _ :: _, [] => false
  | a :: as, b :: bs =>
    if a < b then true else if b < a then false else charListLe as bs

/-- Python's `a <= b` on strings. -/
def pyLe (a b : String) : Bool := charListLe a.data b.data

/-- `pyLe` as a relation, used as the sorting order. -/
def pyLeR (a b : String) : Prop := pyLe a b = true

instance : DecidableRel pyLeR :=
  fun a b => inferInstanceAs (Decidable (pyLe a b = true))

lemma charListLe_total : ∀ as bs : List Char,
    charListLe as bs = true ∨ charListLe bs as = true := by
  intro as
  induction as with
  | nil => intro bs; exact Or.inl rfl
  | cons a as ih =>
    intro bs
    cases bs with
    | nil => exact Or.inr rfl
    | cons b bs =>
      by_cases h1 : a < b
      · left
        simp [charListLe, h1]
      · by_cases h2 : b < a
        · right
          simp [charListLe, h2]
        · rcases ih bs with h | h
          · left
            simp [charListLe, h1, h2, h]
          · right
            simp [charListLe, h1, h2, h]

lemma charListLe_trans : ∀ as bs cs : List Char,
    charListLe as bs = true → charListLe bs cs = true →
      charListLe as cs = true := by
  intro as
  induction as with
  | nil => intro bs cs _ _; rfl
  | cons a as ih =>
    intro bs cs h1 h2
    cases bs with
    | nil => exact absurd h1 (by simp [charListLe])
    | cons b bs =>
      cases cs with
      | nil => exact absurd h2 (by simp [charListLe])
      | cons c cs =>
        by_cases hab : a < b
        · by_cases hbc : b < c
          · simp [charListLe, lt_trans hab hbc]
          · by_cases hcb : c < b
            · simp [charListLe, hbc, hcb] at h2
            · have hbe : b = c := le_antisymm (not_lt.mp hcb) (not_lt.mp hbc)
              subst hbe
              simp [charListLe, hab]
        · by_cases hba : b < a
          · simp [charListLe, hab, hba] at h1
          · have hae : a = b := le_antisymm (not_lt.mp hba) (not_lt.mp hab)
            subst hae
            by_cases hac : a < c
            · simp [charListLe, hac]
            · by_cases hca : c < a
              · simp [charListLe, hac, hca] at h2
              · have hce : a = c := le_antisymm (not_lt.mp hca) (not_lt.mp hac)
                subst hce
                simp only [charListLe, lt_irrefl, if_false] at h1 h2 ⊢
                exact ih bs cs h1 h2

lemma charListLe_antisymm : ∀ as bs : List Char,
    charListLe as bs = true → charListLe bs as = true → as = bs := by
  intro as
  induction as with
  | nil =>
    intro bs h1 h2
    cases bs with
    | nil => rfl
    | cons b bs => exact absurd h2 (by simp [charListLe])
  | cons a as ih =>
    intro bs h1 h2
    cases bs with
    | nil => exact absurd h1 (by simp [charListLe])
    | cons b bs =>
      by_cases hab : a < b
      · simp [charListLe, hab, lt_asymm hab] at h2
      · by_cases hba : b < a
        · simp [charListLe, hab, hba] at h1
        · have hae : a = b := le_antisymm (not_lt.mp hba) (not_lt.mp hab)
          subst hae
          simp only [charListLe, lt_irrefl, if_false] at h1 h2
          rw [ih bs h1 h2]

lemma string_data_eq {a b : String} (h : a.data = b.data) : a = b := by
  cases a
  cases b
  exact congrArg String.mk h

instance : IsTotal String pyLeR :=
  ⟨fun a b => charListLe_total a.data b.data⟩

instance : IsTrans String pyLeR :=
  ⟨fun a b c => charListLe_trans a.data b.data c.data⟩

instance : IsAntisymm String pyLeR :=
  ⟨fun a b h1 h2 => string_data_eq (charListLe_antisymm a.data b.data h1 h2)⟩

/-- The sorted list of elements of a `Finset String`, Python's
`sorted(new_car_ids)`. -/
def finsetSorted (s : Finset String) : List String :=
  Quot.liftOn s.val (fun l => List.insertionSort pyLeR l)
    (fun a b h =>
      List.eq_of_perm_of_sorted
        ((List.perm_insertionSort _ a).trans
          (h.trans (List.perm_insertionSort _ b).symm))
        (List.sorted_insertionSort _ a) (List.sorted_insertionSort _ b))

lemma mem_finsetSorted (s : Finset String) (x : String) :
    x ∈ finsetSorted s ↔ x ∈ s := by
  obtain ⟨m, nd⟩ := s
  induction m using Quotient.inductionOn with
  | h l =>
    simp [finsetSorted, Finset.mem_mk]

lemma finsetSorted_toFinset (s : Finset String) :
    (finsetSorted s).toFinset = s := by
  ext x
  simp [List.mem_toFinset, mem_finsetSorted]

lemma length_finsetSorted (s : Finset String) :
    (finsetSorted s).length = s.card := by
  obtain ⟨m, nd⟩ := s
  induction m using Quotient.inductionOn with
  | h l =>
    simp [finsetSorted, Finset.card_mk]

/-! ### Seen-set store (load_seen_cars / save_seen_cars) -/

/-- `load_seen_cars` from the source: missing file or unparsable content
gives the empty set (logged, not raised); otherwise the `car_ids` array as
a set. -/
def load_seen_cars : FileState → Finset String
  | none => ∅
  | some .corrupt => ∅
  | some (.parsed f) => f.car_ids.toFinset

/-- `save_seen_cars` from the source: overwrites the state file with
`{"car_ids": list(car_ids)}`; a failing write is logged and leaves the
file unchanged.  Python's `list(set)` enumerates the set in some order;
the model uses the sorted enumeration `finsetSorted`. -/
def save_seen_cars (writeOk : Bool) (ids : Finset String) (fs : FileState) :
    FileState :=
  if writeOk then some (.parsed ⟨finsetSorted ids⟩) else fs

/-! ### Pagination discovery (get_pages) and the page clamp -/

/-- Numeric value of a list of decimal digit characters (Python `int`). -/
def digitsToNat (ds : List Char) : Nat :=
  ds.foldl (fun n c => n * 10 + (c.toNat - 48)) 0

/-- Maximal runs of consecutive digit characters, in order. -/
def digitRunsAux : List Char → List Char → List (List Char)
  | [], acc => if acc.isEmpty then [] else [acc.reverse]
  | c :: rest, acc =>
    if c.isDigit then digitRunsAux rest (c :: acc)
    else if acc.isEmpty then digitRunsAux rest []
    else acc.reverse :: digitRunsAux rest []

/-- Maximal digit runs of a char list. -/
def digitRuns (cs : List Char) : List (List Char) := digitRunsAux cs []

/-- Split a char list at newline characters (Python `.` in a regex does not
cross newlines). -/
def splitNl : List Char → List (List Char)
  | [] => [[]]
  | c :: t =>
    let r := splitNl t
    if c = '\n' then [] :: r
    else
      match r with
      | [] => [[c]]
      | l :: ls => (c :: l) :: ls

/-- Model of `re.search(r"(\d+)(?!.*\d)", s)` followed by `int(...)`.
`re.search` scans left to right and `.` does not match newlines, so the
match is the last maximal digit run of the first line that contains any
digit; `none` when the string has no digit at all. -/
def regexLastInt (cs : List Char) : Option Nat :=
  match (splitNl cs).find? (fun line => line.any (fun c => c.isDigit)) with
  | none => none
  | some line => ((digitRuns line).getLast?).map digitsToNat

/-- `get_pages` from the source: on a fetch error, a missing pagination
element, or a regex mismatch it returns 1; otherwise the parsed integer. -/
def get_pages : DiscoveryOutcome → Nat
  | .fetchFail => 1
  | .noPaginationElem => 1
  | .paginationElem s =>
    match regexLastInt s.data with
    | some n => n
    | none => 1

/-- The page numbers iterated by `for page in range(1, min(pagination_value
+ 1, 6))` in `fetch_autotrader_cars`: pages 1 .. min(pv, 5). -/
def pagesToFetch (pv : Nat) : List Nat := List.range' 1 (min pv 5)

/-! ### Write-off filter (is_writeoff) -/

/-- The fixed exclusion keyword list from the source. -/
def writeoff_keywords : List String :=
  ["write-off", "writeoff", "write off",
   "cat s", "cat n", "cat d", "cat c", "cat b", "cat a",
   "category s", "category n", "category d", "category c",
   "salvage", "damaged", "insurance write",
   "accident damage", "repaired damage"]

/-- The text searched by `is_writeoff`: the space-join of the four
lower-cased fields, in source order. -/
def joinedText (car : Car) : String :=
  strLower car.description ++ " " ++ strLower car.attention_grabber ++ " " ++
    strLower car.details ++ " " ++ strLower car.title

/-- `is_writeoff` from the source: true when any exclusion keyword occurs
in the joined lower-cased text. -/
def is_writeoff (car : Car) : Bool :=
  writeoff_keywords.any (fun k => containsSub k (joinedText car))

/-- Decidable check used to state counterexamples: no exclusion keyword
occurs in any single one of the four lower-cased fields. -/
def noKeywordInFields (car : Car) : Bool :=
  writeoff_keywords.all (fun k =>
    !containsSub k (strLower car.description) &&
    !containsSub k (strLower car.attention_grabber) &&
    !containsSub k (strLower car.details) &&
    !containsSub k (strLower car.title))

/-! ### Fetch pipeline (fetch_autotrader_cars) -/

/-- `extract_car_id` plus detail-dict construction for one zipped listing.
The id is `str(hash(title_text))`; the process-local Python `hash` is
modelled by the parameter `hashFn`.  The url is the absolute link when the
title anchor has an `href`, else the empty string. -/
def carOfListing (hashFn : String → String) (r : RawListing) : String × Car :=
  (hashFn r.title,
   { title := r.title
     details := r.details
     cost := r.cost
     description := r.description
     attention_grabber := r.attention_grabber
     url :=
       match r.href with
       | some h => "https://www.autotrader.co.uk" ++ h
       | none => "" })

/-- Python dict assignment `cars[car_id] = details`: update in place when
the key exists (keeping its position), else append. -/
def dictInsert (m : List (String × Car)) (k : String) (v : Car) :
    List (String × Car) :=
  if m.any (fun p => p.1 = k) then
    m.map (fun p => if p.1 = k then (k, v) else p)
  else m ++ [(k, v)]

/-- Python `all_cars.get(car_id, ...)`. -/
def dictGet (m : List (String × Car)) (k : String) : Option Car :=
  (m.find? (fun p => p.1 = k)).map Prod.snd

/-- The inner per-page loop body of `fetch_autotrader_cars`: each zipped
listing yields an id and a detail dict; write-offs are filtered out, the
rest are inserted into the accumulating dict.  (The `all([...])` truthiness
guard and the `if car_id` guard always pass for elements produced by the
zip, so they are not modelled separately.) -/
def addListings (hashFn : String → String) (cars : List (String × Car)) :
    List RawListing → List (String × Car)
  | [] => cars
  | r :: rest =>
    let p := carOfListing hashFn r
    let cars2 := if is_writeoff p.2 then cars else dictInsert cars p.1 p.2
    addListings hashFn cars2 rest

/-- The page loop of `fetch_autotrader_cars`.  A failing page fetch raises
(`none`); the exception propagates out of the whole loop, so all records
accumulated so far are lost. -/
def fetchPages (hashFn : String → String) (pages : Nat → PageFetch) :
    List Nat → List (String × Car) → Option (List (String × Car))
  | [], cars => some cars
  | p :: rest, cars =>
    match pages p with
    | .fail => none
    | .ok listings => fetchPages hashFn pages rest (addListings hashFn cars listings)

/-- `fetch_autotrader_cars` from the source: pagination discovery, then the
page loop clamped to 5 pages, all inside one `try` whose handler returns
the empty dict. -/
def fetch_autotrader_cars (hashFn : String → String)
    (discovery : DiscoveryOutcome) (pages : Nat → PageFetch) :
    List (String × Car) :=
  let pv := get_pages discovery
  match fetchPages hashFn pages (pagesToFetch pv) [] with
  | some cars => cars
  | none => []

/-! ### Notification formatter (format_car_notification) -/

/-- The `'='*40` separator bar. -/
def eqBar : String := ⟨List.replicate 40 '='⟩

/-- The leading header of the first message. -/
def formatHeader (n : Nat) (make mdl : String) : String :=
  "🚗 New AutoTrader Alert!\n\n" ++ Nat.repr n ++ " new " ++ make ++ " " ++
    mdl ++ "(s) found:\n" ++ "\n" ++ eqBar ++ "\n"

/-- The header of a continuation message: `🚗 Continued (k/n)...`. -/
def contdHeader (k n : Nat) : String :=
  "🚗 Continued (" ++ Nat.repr k ++ "/" ++ Nat.repr n ++ ")...\n\n"

/-- The lookup fallback `all_cars.get(car_id, {})` followed by the
per-field `.get(key, default)` calls. -/
def carOf (lookup : String → Option Car) (cid : String) : Car :=
  match lookup cid with
  | some c => c
  | none =>
    { title := "Unknown", details := "", cost := "N/A", description := ""
      attention_grabber := "", url := "" }

/-- The `car_info` block built for one car: title line, then the optional
detail/price/description/attention/url lines (each line omitted when its
field is empty), then a separator bar. -/
def carBlock (car : Car) : String :=
  "\n" ++ "📍 " ++ car.title ++ "\n" ++
    (if car.details = "" then "" else "   " ++ car.details ++ "\n") ++
    (if car.cost = "" then "" else "   💰 " ++ car.cost ++ "\n") ++
    (if car.description = "" then "" else "   📝 " ++ car.description ++ "\n") ++
    (if car.attention_grabber = "" then ""
     else "   ⭐ " ++ car.attention_grabber ++ "\n") ++
    (if car.url = "" then "" else "   🔗 " ++ car.url ++ "\n") ++
    "\n" ++ eqBar ++ "\n"

/-- The `for car_id in sorted(new_car_ids)` loop of the formatter: when
appending the next block would push the current message past 4000
characters, the current message is sealed and a new one started with a
continued header.  Returns (sealed messages, current message, car count). -/
def formatLoop (lookup : String → Option Car) (n : Nat) :
    List String → String → Nat → List String → List String × String × Nat
  | [], cur, count, msgs => (msgs, cur, count)
  | cid :: rest, cur, count, msgs =>
    let info := carBlock (carOf lookup cid)
    if 4000 < (cur ++ info).length then
      formatLoop lookup n rest (contdHeader (count + 1) n ++ info) (count + 1)
        (msgs ++ [cur])
    else
      formatLoop lookup n rest (cur ++ info) (count + 1) msgs

/-- The fixed search-criteria footer. -/
def formatFooter (make mdl : String) : String :=
  "\n📋 Search Criteria:\n" ++ "• Make/Model: " ++ make ++ " " ++ mdl ++ "\n" ++
    "• Year: 2020 and newer\n" ++ "• Price: Under £15,000\n" ++
    "• Mileage: Under 80,000 miles\n" ++ "• Transmission: Automatic only\n" ++
    "• Condition: No write-offs\n"

/-- The footer handling after the loop: append the footer to the current
message when that stays within 4000 characters, else seal the current
message and the footer separately. -/
def formatFinish (r : List String × String × Nat) (footer : String) :
    List String :=
  if 4000 < (r.2.1 ++ footer).length then r.1 ++ [r.2.1, footer]
  else r.1 ++ [r.2.1 ++ footer]

/-- `format_car_notification` from the source.  Python's `sorted` on a set
of strings is the lexicographic sort `finsetSorted`. -/
def format_car_notification (new_ids : Finset String)
    (lookup : String → Option Car) (make mdl : String) : List String :=
  if new_ids.card = 0 then []
  else
    formatFinish
      (formatLoop lookup new_ids.card (finsetSorted new_ids)
        (formatHeader new_ids.card make mdl) 0 [])
      (formatFooter make mdl)

/-! ### Diff engine and orchestrator (main) -/

/-- The diff `new_cars = current_cars - seen_cars` in `main`: exact set
difference. -/
def diff (current seen : Finset String) : Finset String := current \ seen

/-- The final summary dict returned by `main`. -/
structure Summary where
  ok : Bool
  new_cars_count : Nat
  total_count : Nat
  previously_seen : Nat
  currently_seen : Nat
deriving DecidableEq

/-- One run's external world: credentials, resolved make/model, the prior
state file, the process hash function, the page-fetch outcomes, the
Telegram transport outcomes per dispatched message, and whether the state
write succeeds. -/
structure RunInput where
  botToken : Option String
  chatId : Option String
  make : String
  model : String
  fileSt : FileState
  hashFn : String → String
  discovery : DiscoveryOutcome
  pages : Nat → PageFetch
  transportOk : Nat → Bool
  writeOk : Bool

/-- Everything observable about one run of `main`: the returned summary,
the state file after the run, the messages successfully dispatched, and
whether the notification step raised (and was caught by `main`). -/
structure RunResult where
  summary : Summary
  finalFile : FileState
  sent : List String
  notifyFailed : Bool
deriving DecidableEq

/-- The key set of the record dict returned by the fetch step of the run. -/
def currentOf (inp : RunInput) : Finset String :=
  ((fetch_autotrader_cars inp.hashFn inp.discovery inp.pages).map Prod.fst).toFinset

/-- `main` from the source: load the seen set, fetch, diff, (on a nonempty
diff) format and dispatch inside a try whose handler only logs, then (on a
nonempty current set) persist, and finally return the summary with
`ok: True`. -/
def main (inp : RunInput) : RunResult :=
  let seen := load_seen_cars inp.fileSt
  let all_cars := fetch_autotrader_cars inp.hashFn inp.discovery inp.pages
  let current := currentOf inp
  let newCars := diff current seen
  let nr :=
    if newCars = ∅ then ([], true)
    else
      sendLoop inp.botToken inp.chatId inp.transportOk
        (format_car_notification newCars (dictGet all_cars) inp.make inp.model) 0
  let finalFile :=
    if current = ∅ then inp.fileSt
    else save_seen_cars inp.writeOk current inp.fileSt
  { summary :=
      { ok := true
        new_cars_count := newCars.card
        total_count := current.card
        previously_seen := seen.card
        currently_seen := current.card }
    finalFile := finalFile
    sent := nr.1
    notifyFailed := !nr.2 }

/-! ### Concrete run inputs used by witnesses and counterexamples -/

/-- A clean listing used by the concrete runs. -/
def listT1 : RawListing :=
  { title := "t1", details := "d", cost := "£9", description := "nice"
    attention_grabber := "", href := none }

/-- The record built from `listT1` with the identity hash. -/
def carT1 : Car :=
  { title := "t1", details := "d", cost := "£9", description := "nice"
    attention_grabber := "", url := "" }

/-- Page outcomes: page 1 succeeds with one listing, later pages fail. -/
def pagesOne : Nat → PageFetch := fun p => if p = 1 then .ok [listT1] else .fail

/-- A discovery outcome whose pagination text reports 2 pages. -/
def discTwo : DiscoveryOutcome := .paginationElem "2"

/-- A run with `BOT_TOKEN` unset and one fresh listing. -/
def inpC1 : RunInput :=
  { botToken := none, chatId := some "c", make := "BMW", model := "3 Series"
    fileSt := none, hashFn := fun t => t, discovery := .noPaginationElem
    pages := pagesOne, transportOk := fun _ => true, writeOk := true }

/-- A run with good credentials but a failing Telegram transport. -/
def inpC2 : RunInput :=
  { inpC1 with botToken := some "b", transportOk := fun _ => false }

/-- A run that scrapes zero listings over a prior nonempty state file. -/
def inpC4 : RunInput :=
  { inpC1 with
    botToken := some "b"
    pages := fun _ => .ok []
    fileSt := some (.parsed ⟨["old"]⟩) }

/-- A record whose description carries an upper-cased `Cat S` marker. -/
def cwCar : Car :=
  { title := "BMW 3", details := "2021", cost := "£10"
    description := "Cat S repairable", attention_grabber := "", url := "" }

/-- A record with keyword-free fields whose space-join contains `cat s`. -/
def cexCar : Car :=
  { title := "", details := "", cost := "", description := "my cat"
    attention_grabber := "sits", url := "" }

/-! ### Helper lemmas about the string primitives -/

lemma begWith_append (p : List Char) :
    ∀ s b : List Char, begWith p s = true → begWith p (s ++ b) = true := by
  induction p with
  | nil => intro s b _; rfl
  | cons c cs ih =>
    intro s b h
    cases s with
    | nil => exact absurd h (by simp [begWith])
    | cons d ds =>
      simp only [begWith, Bool.and_eq_true, beq_iff_eq] at h
      simp only [List.cons_append, begWith, Bool.and_eq_true, beq_iff_eq]
      exact ⟨h.1, ih ds b h.2⟩

lemma begWith_self_append (p b : List Char) : begWith p (p ++ b) = true := by
  induction p with
  | nil => rfl
  | cons c cs ih => simp [begWith, ih]

lemma hasSub_nil_needle : ∀ l : List Char, hasSub [] l = true := by
  intro l
  cases l with
  | nil => rfl
  | cons c t => simp [hasSub, begWith]

lemma hasSub_append_r (p : List Char) :
    ∀ a b : List Char, hasSub p a = true → hasSub p (a ++ b) = true := by
  intro a
  induction a with
  | nil =>
    intro b h
    have hp : p = [] := by
      simpa [hasSub, List.isEmpty_iff] using h
    subst hp
    exact hasSub_nil_needle b
  | cons c t ih =>
    intro b h
    simp only [hasSub, Bool.or_eq_true] at h
    rcases h with h | h
    · simp only [List.cons_append, hasSub, Bool.or_eq_true]
      exact Or.inl (by simpa using begWith_append p (c :: t) b h)
    · simp only [List.cons_append, hasSub, Bool.or_eq_true]
      exact Or.inr (ih b h)

lemma hasSub_sandwich (p : List Char) :
    ∀ a b : List Char, hasSub p (a ++ (p ++ b)) = true := by
  intro a
  induction a with
  | nil =>
    intro b
    cases p with
    | nil => exact hasSub_nil_needle b
    | cons c cs =>
      simp only [List.nil_append, hasSub, Bool.or_eq_true]
      exact Or.inl (begWith_self_append (c :: cs) (b))
  | cons c t ih =>
    intro b
    simp only [List.cons_append, hasSub, Bool.or_eq_true]
    exact Or.inr (ih b)

lemma concatMsgs_append (xs ys : List String) :
    concatMsgs (xs ++ ys) = concatMsgs xs ++ concatMsgs ys := by
  induction xs with
  | nil => simp [concatMsgs, String.empty_append]
  | cons m rest ih =>
    simp [concatMsgs, ih, String.append_assoc]

/-! ### Helper lemmas about the orchestrator -/

lemma sendLoop_badcfg (bot chat : Option String) (tr : Nat → Bool)
    (h : (falsy bot || falsy chat) = true) (msgs : List String) (i : Nat) :
    (sendLoop bot chat tr msgs i).1 = []
      ∧ ((sendLoop bot chat tr msgs i).2 = true ↔ msgs = []) := by
  cases msgs with
  | nil => exact ⟨rfl, by simp [sendLoop]⟩
  | cons m rest =>
    have hn : notify bot chat (tr i) m =
        .error "BOT_TOKEN and CHAT_ID environment variables must be set." := by
      simp [notify, startup, h]
    simp [sendLoop, hn]

lemma format_ne_nil (new_ids : Finset String) (lookup : String → Option Car)
    (make mdl : String) (h : new_ids.card ≠ 0) :
    format_car_notification new_ids lookup make mdl ≠ [] := by
  simp only [format_car_notification, h, if_false, formatFinish]
  split <;> simp

lemma fetchPages_of_fail (hashFn : String → String) (pages : Nat → PageFetch) :
    ∀ (ps : List Nat) (acc : List (String × Car)) (p : Nat),
      p ∈ ps → pages p = .fail → fetchPages hashFn pages ps acc = none := by
  intro ps
  induction ps with
  | nil => intro acc p hp _; exact absurd hp (List.not_mem_nil p)
  | cons q rest ih =>
    intro acc p hp hf
    cases hq : pages q with
    | fail => simp [fetchPages, hq]
    | ok ls =>
      have hpr : p ∈ rest := by
        rcases List.mem_cons.mp hp with h | h
        · subst h; rw [hq] at hf; exact absurd hf (by simp)
        · exact h
      simp [fetchPages, hq, ih _ p hpr hf]

/-! ### Claims -/

/-! ### Helper lemmas for the formatter (claim C5) -/

lemma begWith_iff (p : List Char) :
    ∀ s : List Char, begWith p s = true ↔ ∃ b, s = p ++ b := by
  induction p with
  | nil => intro s; simp [begWith]
  | cons c cs ih =>
    intro s
    cases s with
    | nil =>
      simp only [begWith, List.nil_eq, List.cons_append]
      constructor
      · intro h; exact absurd h (by simp)
      · rintro ⟨b, hb⟩; exact absurd hb (by simp)
    | cons d ds =>
      constructor
      · intro h
        simp only [begWith, Bool.and_eq_true, beq_iff_eq] at h
        obtain ⟨b, hb⟩ := (ih ds).mp h.2
        exact ⟨b, by simp [h.1, hb]⟩
      · rintro ⟨b, hb⟩
        rw [List.cons_append] at hb
        injection hb with h1 h2
        subst h1
        simp only [begWith, Bool.and_eq_true, beq_iff_eq]
        exact ⟨trivial, (ih ds).mpr ⟨b, h2⟩⟩

lemma hasSub_iff (p : List Char) :
    ∀ hay : List Char, hasSub p hay = true ↔ ∃ a b, hay = a ++ (p ++ b) := by
  intro hay
  induction hay with
  | nil =>
    simp only [hasSub, List.isEmpty_iff]
    constructor
    · rintro rfl; exact ⟨[], [], rfl⟩
    · rintro ⟨a, b, hab⟩
      rcases List.append_eq_nil.mp hab.symm with ⟨_, hpb⟩
      exact (List.append_eq_nil.mp hpb).1
  | cons c t ih =>
    simp only [hasSub, Bool.or_eq_true, begWith_iff, ih]
    constructor
    · rintro (⟨b, hb⟩ | ⟨a, b, hab⟩)
      · exact ⟨[], b, by simp [hb]⟩
      · exact ⟨c :: a, b, by simp [hab]⟩
    · rintro ⟨a, b, hab⟩
      cases a with
      | nil => exact Or.inl ⟨b, by simpa using hab⟩
      | cons a0 as =>
        rw [List.cons_append] at hab
        injection hab with h1 h2
        exact Or.inr ⟨as, b, h2⟩

lemma hasSub_trans (p q r : List Char) (h1 : hasSub p q = true)
    (h2 : hasSub q r = true) : hasSub p r = true := by
  obtain ⟨a1, b1, hq⟩ := (hasSub_iff p q).mp h1
  obtain ⟨a2, b2, hr⟩ := (hasSub_iff q r).mp h2
  refine (hasSub_iff p r).mpr ⟨a2 ++ a1, b1 ++ b2, ?_⟩
  subst hq
  rw [hr]
  simp [List.append_assoc]

lemma hasSub_title_carBlock (car : Car) :
    hasSub car.title.data (carBlock car).data = true := by
  refine (hasSub_iff _ _).mpr
    ⟨("\n" ++ "📍 ").data,
     ("\n" ++
        (if car.details = "" then "" else "   " ++ car.details ++ "\n") ++
        (if car.cost = "" then "" else "   💰 " ++ car.cost ++ "\n") ++
        (if car.description = "" then ""
         else "   📝 " ++ car.description ++ "\n") ++
        (if car.attention_grabber = "" then ""
         else "   ⭐ " ++ car.attention_grabber ++ "\n") ++
        (if car.url = "" then "" else "   🔗 " ++ car.url ++ "\n") ++
        "\n" ++ eqBar ++ "\n").data, ?_⟩
  simp [carBlock, String.data_append, List.append_assoc]

lemma concatMsgs_formatFinish (r : List String × String × Nat) (footer : String) :
    concatMsgs (formatFinish r footer) = concatMsgs r.1 ++ (r.2.1 ++ footer) := by
  unfold formatFinish
  split
  · rw [concatMsgs_append]
    simp [concatMsgs, String.append_empty, String.append_assoc]
  · rw [concatMsgs_append]
    simp [concatMsgs, String.append_empty]

lemma formatFinish_bounded (r : List String × String × Nat) (footer : String)
    (hm : ∀ m ∈ r.1, m.length ≤ 4000) (hc : r.2.1.length ≤ 4000)
    (hf : footer.length ≤ 4000) :
    ∀ m ∈ formatFinish r footer, m.length ≤ 4000 := by
  intro m hmem
  unfold formatFinish at hmem
  by_cases hsp : 4000 < (r.2.1 ++ footer).length
  · rw [if_pos hsp] at hmem
    rcases List.mem_append.mp hmem with h | h
    · exact hm m h
    · simp only [List.mem_cons, List.mem_singleton] at h
      rcases h with rfl | rfl | h
      · exact hc
      · exact hf
      · exact absurd h (List.not_mem_nil m)
  · rw [if_neg hsp] at hmem
    rcases List.mem_append.mp hmem with h | h
    · exact hm m h
    · simp only [List.mem_singleton] at h
      subst h
      exact Nat.le_of_not_lt hsp

lemma formatFinish_two (r : List String × String × Nat) (footer : String)
    (h : 4000 < (concatMsgs (formatFinish r footer)).length) :
    1 < (formatFinish r footer).length := by
  rw [concatMsgs_formatFinish] at h
  unfold formatFinish
  by_cases hsp : 4000 < (r.2.1 ++ footer).length
  · rw [if_pos hsp]
    simp only [List.length_append, List.length_cons, List.length_singleton]
    omega
  · rw [if_neg hsp]
    rcases hr1 : r.1 with _ | ⟨m, ms⟩
    · exfalso
      rw [hr1] at h
      simp only [concatMsgs, String.empty_append] at h
      exact hsp h
    · simp only [List.length_append, List.length_cons, List.length_singleton]
      omega

lemma formatLoop_extension (lookup : String → Option Car) (n : Nat) :
    ∀ (ids : List String) (cur : String) (count : Nat) (msgs : List String),
      ∃ ext : String,
        concatMsgs (formatLoop lookup n ids cur count msgs).1 ++
            (formatLoop lookup n ids cur count msgs).2.1
          = concatMsgs msgs ++ (cur ++ ext) := by
  intro ids
  induction ids with
  | nil =>
    intro cur count msgs
    refine ⟨"", ?_⟩
    simp [formatLoop, String.append_empty]
  | cons cid rest ih =>
    intro cur count msgs
    by_cases hsp : 4000 < (cur ++ carBlock (carOf lookup cid)).length
    · obtain ⟨e0, he0⟩ := ih (contdHeader (count + 1) n ++ carBlock (carOf lookup cid))
        (count + 1) (msgs ++ [cur])
      refine ⟨contdHeader (count + 1) n ++ (carBlock (carOf lookup cid) ++ e0), ?_⟩
      simp only [formatLoop, if_pos hsp]
      rw [he0, concatMsgs_append]
      simp [concatMsgs, String.append_empty, String.append_assoc]
    · obtain ⟨e0, he0⟩ := ih (cur ++ carBlock (carOf lookup cid)) (count + 1) msgs
      refine ⟨carBlock (carOf lookup cid) ++ e0, ?_⟩
      simp only [formatLoop, if_neg hsp]
      rw [he0]
      simp [String.append_assoc]

lemma formatLoop_blocks (lookup : String → Option Car) (n : Nat) :
    ∀ (ids : List String) (cur : String) (count : Nat) (msgs : List String)
      (cid : String), cid ∈ ids →
      hasSub (carBlock (carOf lookup cid)).data
        (concatMsgs (formatLoop lookup n ids cur count msgs).1 ++
          (formatLoop lookup n ids cur count msgs).2.1).data = true := by
  intro ids
  induction ids with
  | nil =>
    intro cur count msgs cid hcid
    exact absurd hcid (List.not_mem_nil cid)
  | cons c0 rest ih =>
    intro cur count msgs cid hcid
    by_cases hsp : 4000 < (cur ++ carBlock (carOf lookup c0)).length
    · simp only [formatLoop, if_pos hsp]
      rcases List.mem_cons.mp hcid with rfl | hmem
      · obtain ⟨e0, he0⟩ := formatLoop_extension lookup n rest
          (contdHeader (count + 1) n ++ carBlock (carOf lookup cid)) (count + 1)
          (msgs ++ [cur])
        rw [he0]
        refine (hasSub_iff _ _).mpr
          ⟨(concatMsgs (msgs ++ [cur])).data ++ (contdHeader (count + 1) n).data,
           e0.data, ?_⟩
        simp [String.data_append, List.append_assoc]
      · exact ih _ _ _ cid hmem
    · simp only [formatLoop, if_neg hsp]
      rcases List.mem_cons.mp hcid with rfl | hmem
      · obtain ⟨e0, he0⟩ := formatLoop_extension lookup n rest
          (cur ++ carBlock (carOf lookup cid)) (count + 1) msgs
        rw [he0]
        refine (hasSub_iff _ _).mpr
          ⟨(concatMsgs msgs).data ++ cur.data, e0.data, ?_⟩
        simp [String.data_append, List.append_assoc]
      · exact ih _ _ _ cid hmem

lemma formatLoop_bounded (lookup : String → Option Car) (n : Nat) :
    ∀ (ids : List String) (cur : String) (count : Nat) (msgs : List String),
      (∀ m ∈ msgs, m.length ≤ 4000) → cur.length ≤ 4000 →
      count + ids.length ≤ n →
      (∀ cid ∈ ids, ∀ k, k ≤ n →
          (contdHeader k n ++ carBlock (carOf lookup cid)).length ≤ 4000) →
      (∀ m ∈ (formatLoop lookup n ids cur count msgs).1, m.length ≤ 4000) ∧
        (formatLoop lookup n ids cur count msgs).2.1.length ≤ 4000 := by
  intro ids
  induction ids with
  | nil =>
    intro cur count msgs hm hc _ _
    exact ⟨by simpa [formatLoop] using hm, by simpa [formatLoop] using hc⟩
  | cons c0 rest ih =>
    intro cur count msgs hm hc hcount hb
    simp only [List.length_cons] at hcount
    by_cases hsp : 4000 < (cur ++ carBlock (carOf lookup c0)).length
    · simp only [formatLoop, if_pos hsp]
      refine ih _ _ _ ?_ ?_ ?_ ?_
      · intro m hmem
        rcases List.mem_append.mp hmem with h | h
        · exact hm m h
        · simp only [List.mem_singleton] at h
          subst h
          exact hc
      · exact hb c0 (List.mem_cons_self c0 rest) (count + 1) (by omega)
      · simpa using by omega
      · intro cid hcid k hk
        exact hb cid (List.mem_cons_of_mem c0 hcid) k hk
    · simp only [formatLoop, if_neg hsp]
      refine ih _ _ _ hm (Nat.le_of_not_lt hsp) ?_ ?_
      · simpa using by omega
      · intro cid hcid k hk
        exact hb cid (List.mem_cons_of_mem c0 hcid) k hk

/-! ### C5 concrete inputs -/

/-- A 4200-character description, long enough to overflow one message. -/
def bigDesc : String := ⟨List.replicate 4200 'a'⟩

/-- A record whose title also occurs (many times) inside its description. -/
def cex5Car : Car :=
  { title := "aaa", details := "", cost := "N/A", description := bigDesc
    attention_grabber := "", url := "" }

/-- Lookup for the C5 counterexample run. -/
def cex5Lookup : String → Option Car :=
  fun i => if i = "z" then some cex5Car else none

/-- The single new id of the C5 counterexample run. -/
def cex5Ids : Finset String := {"z"}

/-- A 1400-character description for the witness records. -/
def medDesc : String := ⟨List.replicate 1400 'b'⟩

/-- Lookup for the C5 witness run: every id maps to a medium record. -/
def cw5Lookup : String → Option Car :=
  fun i => some { title := i, details := "", cost := "N/A"
                  description := medDesc, attention_grabber := "", url := "" }

/-- The three new ids of the C5 witness run. -/
def cw5Ids : Finset String := {"p", "q", "r"}

/-- The tail of `bigDesc` after its first three characters. -/
def restDesc : String := ⟨List.replicate 4197 'a'⟩

/-! ### Symbolic length and occurrence computations for the C5 runs

The concrete C5 runs involve strings of several thousand characters, so
their facts are established through length arithmetic
(`String.length_append` plus the length of `List.replicate`) rather than
by evaluating the multi-thousand-character strings. -/

lemma formatLoop_growth (lookup : String → Option Car) (n : Nat) :
    ∀ (ids : List String) (cur : String) (count : Nat) (msgs : List String),
      (concatMsgs msgs ++ cur).length +
          (ids.map (fun cid => (carBlock (carOf lookup cid)).length)).sum
        ≤ (concatMsgs (formatLoop lookup n ids cur count msgs).1 ++
            (formatLoop lookup n ids cur count msgs).2.1).length := by
  intro ids
  induction ids with
  | nil =>
    intro cur count msgs
    simp [formatLoop]
  | cons cid rest ih =>
    intro cur count msgs
    by_cases hsp : 4000 < (cur ++ carBlock (carOf lookup cid)).length
    · simp only [formatLoop, if_pos hsp]
      have h0 := ih (contdHeader (count + 1) n ++ carBlock (carOf lookup cid))
        (count + 1) (msgs ++ [cur])
      simp only [concatMsgs_append, concatMsgs, String.length_append,
        String.append_empty, List.map_cons, List.sum_cons] at h0 ⊢
      omega
    · simp only [formatLoop, if_neg hsp]
      have h0 := ih (cur ++ carBlock (carOf lookup cid)) (count + 1) msgs
      simp only [String.length_append, List.map_cons, List.sum_cons] at h0 ⊢
      omega

lemma countOccs_prefix_le (p : List Char) :
    ∀ a b : List Char, countOccs p b ≤ countOccs p (a ++ b) := by
  intro a
  induction a with
  | nil => intro b; simp
  | cons c t ih =>
    intro b
    calc countOccs p b ≤ countOccs p (t ++ b) := ih b
    _ ≤ countOccs p (c :: (t ++ b)) := Nat.le_add_left _ _
    _ = countOccs p ((c :: t) ++ b) := by rw [List.cons_append]

lemma countOccs_self_pos (p : List Char) (hp : p ≠ []) (b : List Char) :
    1 ≤ countOccs p (p ++ b) := by
  cases p with
  | nil => exact absurd rfl hp
  | cons c t =>
    have hbw := begWith_self_append (c :: t) b
    rw [List.cons_append] at hbw ⊢
    simp only [countOccs, hbw, if_true]
    omega

lemma countOccs_two (p A B C : List Char) (hp : p ≠ []) :
    2 ≤ countOccs p (A ++ (p ++ (B ++ (p ++ C)))) := by
  have h1 : 2 ≤ countOccs p (p ++ (B ++ (p ++ C))) := by
    cases p with
    | nil => exact absurd rfl hp
    | cons c t =>
      have hbw := begWith_self_append (c :: t) (B ++ ((c :: t) ++ C))
      rw [List.cons_append] at hbw
      have h2 : 1 ≤ countOccs (c :: t) (t ++ (B ++ ((c :: t) ++ C))) := by
        calc 1 ≤ countOccs (c :: t) ((c :: t) ++ C) :=
              countOccs_self_pos (c :: t) (by simp) C
        _ ≤ countOccs (c :: t) ((t ++ B) ++ ((c :: t) ++ C)) :=
              countOccs_prefix_le _ _ _
        _ = countOccs (c :: t) (t ++ (B ++ ((c :: t) ++ C))) := by
              rw [List.append_assoc]
      rw [List.cons_append]
      simp only [countOccs, hbw, if_true]
      omega
  calc 2 ≤ countOccs p (p ++ (B ++ (p ++ C))) := h1
  _ ≤ countOccs p (A ++ (p ++ (B ++ (p ++ C)))) := countOccs_prefix_le _ _ _

lemma medDesc_len : medDesc.length = 1400 := List.length_replicate 1400 'b'

lemma bigDesc_len : bigDesc.length = 4200 := List.length_replicate 4200 'a'

lemma eqBar_len : eqBar.length = 40 := List.length_replicate 40 '='

lemma carBlock_len_simple (t c d : String) (hc : c ≠ "") (hd : d ≠ "") :
    (carBlock { title := t, details := "", cost := c, description := d
                attention_grabber := "", url := "" }).length
      = t.length + c.length + d.length + 58 := by
  have e1 : ("\n" : String).length = 1 := rfl
  have e2 : ("📍 " : String).length = 2 := rfl
  have e3 : ("" : String).length = 0 := rfl
  have e4 : ("   💰 " : String).length = 5 := rfl
  have e6 : ("   📝 " : String).length = 5 := rfl
  have hbar : eqBar.length = 40 := eqBar_len
  simp only [carBlock, String.length_append]
  simp [hc, hd, e1, e2, e3, e4, e6, hbar]
  omega

lemma medDesc_ne : medDesc ≠ "" := by
  intro h
  have h2 := congrArg String.length h
  rw [medDesc_len] at h2
  exact absurd h2 (by decide)

lemma bigDesc_ne : bigDesc ≠ "" := by
  intro h
  have h2 := congrArg String.length h
  rw [bigDesc_len] at h2
  exact absurd h2 (by decide)

lemma cw5_block_len (i : String) :
    (carBlock (carOf cw5Lookup i)).length = i.length + 1461 := by
  have h1 : carOf cw5Lookup i =
      { title := i, details := "", cost := "N/A", description := medDesc
        attention_grabber := "", url := "" } := rfl
  rw [h1, carBlock_len_simple i "N/A" medDesc (by decide) medDesc_ne]
  have h2 : ("N/A" : String).length = 3 := rfl
  rw [h2, medDesc_len]

lemma cex5_block_len : (carBlock (carOf cex5Lookup "z")).length = 4264 := by
  have h1 : carOf cex5Lookup "z" = cex5Car := rfl
  have h3 : cex5Car =
      { title := "aaa", details := "", cost := "N/A", description := bigDesc
        attention_grabber := "", url := "" } := rfl
  rw [h1, h3, carBlock_len_simple "aaa" "N/A" bigDesc (by decide) bigDesc_ne]
  have h2 : ("N/A" : String).length = 3 := rfl
  have h4 : ("aaa" : String).length = 3 := rfl
  rw [h2, h4, bigDesc_len]

lemma cw5_hb : ∀ cid ∈ cw5Ids, ∀ k, k ≤ cw5Ids.card →
    (contdHeader k cw5Ids.card ++ carBlock (carOf cw5Lookup cid)).length ≤ 4000 := by
  intro cid hcid k hk
  have hcard : cw5Ids.card = 3 := by decide
  rw [hcard] at hk ⊢
  rw [String.length_append, cw5_block_len]
  have hcid1 : cid.length = 1 := by
    have : cid = "p" ∨ cid = "q" ∨ cid = "r" := by
      simpa [cw5Ids, Finset.mem_insert, Finset.mem_singleton] using hcid
    rcases this with rfl | rfl | rfl <;> rfl
  have hc : (contdHeader k 3).length ≤ 25 := by
    interval_cases k <;> decide
  omega

lemma cw5_card_ne : ¬ cw5Ids.card = 0 := by decide

lemma cw5_format_eq : format_car_notification cw5Ids cw5Lookup "BMW" "i3" =
    formatFinish
      (formatLoop cw5Lookup cw5Ids.card (finsetSorted cw5Ids)
        (formatHeader cw5Ids.card "BMW" "i3") 0 [])
      (formatFooter "BMW" "i3") := by
  simp only [format_car_notification]
  rw [if_neg cw5_card_ne]

lemma cw5_sort_eq : finsetSorted cw5Ids = ["p", "q", "r"] := by decide

lemma cw5_content_long :
    4000 < (concatMsgs (format_car_notification cw5Ids cw5Lookup "BMW" "i3")).length := by
  rw [cw5_format_eq, concatMsgs_formatFinish, cw5_sort_eq]
  have hg := formatLoop_growth cw5Lookup cw5Ids.card ["p", "q", "r"]
    (formatHeader cw5Ids.card "BMW" "i3") 0 []
  set R := formatLoop cw5Lookup cw5Ids.card ["p", "q", "r"]
    (formatHeader cw5Ids.card "BMW" "i3") 0 [] with hRdef
  clear_value R
  have hp := cw5_block_len "p"
  have hq := cw5_block_len "q"
  have hr := cw5_block_len "r"
  have lp : ("p" : String).length = 1 := rfl
  have lq : ("q" : String).length = 1 := rfl
  have lr : ("r" : String).length = 1 := rfl
  simp only [List.map_cons, List.map_nil, List.sum_cons, List.sum_nil,
    concatMsgs, String.empty_append, String.length_append, hp, hq, hr,
    lp, lq, lr] at hg ⊢
  omega

lemma cex5_cond1 :
    4000 < ((formatHeader 1 "BMW" "i3") ++ carBlock (carOf cex5Lookup "z")).length := by
  rw [String.length_append, cex5_block_len]
  have hh : (formatHeader 1 "BMW" "i3").length = 90 := by decide
  omega

lemma cex5_format_eq :
    format_car_notification cex5Ids cex5Lookup "BMW" "i3" =
      [formatHeader 1 "BMW" "i3",
       contdHeader 1 1 ++ carBlock (carOf cex5Lookup "z"),
       formatFooter "BMW" "i3"] := by
  have hcard : cex5Ids.card = 1 := by decide
  have hsort : finsetSorted cex5Ids = ["z"] := by decide
  have hloop : formatLoop cex5Lookup 1 ["z"] (formatHeader 1 "BMW" "i3") 0 [] =
      ([formatHeader 1 "BMW" "i3"],
       contdHeader 1 1 ++ carBlock (carOf cex5Lookup "z"), 1) := by
    simp only [formatLoop, if_pos cex5_cond1]
    simp [formatLoop]
  have hcond2 : 4000 <
      ((contdHeader 1 1 ++ carBlock (carOf cex5Lookup "z")) ++
        formatFooter "BMW" "i3").length := by
    simp only [String.length_append, cex5_block_len]
    have h1 : (contdHeader 1 1).length = 22 := by decide
    have h2 : (formatFooter "BMW" "i3").length = 175 := by decide
    omega
  simp only [format_car_notification, hcard]
  rw [if_neg (by decide : ¬ (1 : Nat) = 0), hsort, hloop]
  simp only [formatFinish]
  rw [if_pos hcond2]
  rfl

lemma cex5_msgs_long :
    4096 < ((format_car_notification cex5Ids cex5Lookup "BMW" "i3").getD 1 "").length := by
  rw [cex5_format_eq]
  simp only [List.getD]
  show 4096 < ((contdHeader 1 1 ++ carBlock (carOf cex5Lookup "z")) : String).length
  rw [String.length_append, cex5_block_len]
  have h1 : (contdHeader 1 1).length = 22 := by decide
  omega

lemma bigDesc_split : bigDesc = "aaa" ++ restDesc := by
  apply string_data_eq
  rw [String.data_append]
  show List.replicate 4200 'a' = "aaa".data ++ List.replicate 4197 'a'
  rw [show (4200 : Nat) = 3 + 4197 by norm_num, List.replicate_add]
  rfl

lemma cex5_title_twice :
    2 ≤ countOccs "aaa".data
      (concatMsgs (format_car_notification cex5Ids cex5Lookup "BMW" "i3")).data := by
  have hblockeq : carBlock (carOf cex5Lookup "z") =
      "\n" ++ "📍 " ++ "aaa" ++ "\n" ++ "" ++ ("   💰 " ++ "N/A" ++ "\n") ++
        ("   📝 " ++ ("aaa" ++ restDesc) ++ "\n") ++ "" ++ "" ++ "\n" ++
        eqBar ++ "\n" := by
    have h1 : carOf cex5Lookup "z" = cex5Car := rfl
    have hbig : bigDesc ≠ "" := by
      intro h
      have := congrArg String.length h
      rw [bigDesc_len] at this
      exact absurd this (by decide)
    have hne2 : ¬ ("aaa" ++ restDesc : String) = "" := by
      intro h
      have h2 := congrArg String.length h
      rw [String.length_append] at h2
      rw [show restDesc.length = 4197 from List.length_replicate 4197 'a'] at h2
      exact absurd h2 (by decide)
    rw [h1]
    simp [carBlock, cex5Car, hbig, bigDesc_split, hne2]
  have hdata :
      (concatMsgs (format_car_notification cex5Ids cex5Lookup "BMW" "i3")).data =
        ((formatHeader 1 "BMW" "i3").data ++ (contdHeader 1 1).data ++
            "\n".data ++ "📍 ".data) ++
          ("aaa".data ++
            (("\n".data ++ "".data ++ "   💰 ".data ++ "N/A".data ++ "\n".data ++
                "   📝 ".data) ++
              ("aaa".data ++
                (restDesc.data ++ "\n".data ++ "".data ++ "".data ++ "\n".data ++
                  eqBar.data ++ "\n".data ++ (formatFooter "BMW" "i3").data)))) := by
    rw [cex5_format_eq, hblockeq]
    simp only [concatMsgs, String.data_append, String.append_empty,
      List.append_assoc, List.append_nil]
  rw [hdata]
  exact countOccs_two _ _ _ _ (by decide)

/-! ### Claim theorems, witnesses and counterexamples -/

/-- C3 (amended): when fetching one of the iterated result pages fails, the
exception propagates to the surrounding handler and
`fetch_autotrader_cars` returns the empty record set — the records
accumulated from earlier successful pages are discarded, not returned. -/
theorem C3_fetch_discards (hashFn : String → String) (d : DiscoveryOutcome)
    (pages : Nat → PageFetch) (p : Nat)
    (hp : p ∈ pagesToFetch (get_pages d)) (hfail : pages p = .fail) :
    fetch_autotrader_cars hashFn d pages = [] := by
  simp [fetch_autotrader_cars, fetchPages_of_fail hashFn pages _ _ p hp hfail]

/-- C3 witness: a concrete two-page run whose second page fails returns no
records at all. -/
theorem C3_fetch_discards_w :
    fetch_autotrader_cars (fun t => t) discTwo pagesOne = [] :=
  C3_fetch_discards (fun t => t) discTwo pagesOne 2 (by decide) (by decide)

/-- C3 counterexample: pagination reports 2 pages, page 1 succeeds and
yields one record, page 2 fails — yet the fetch step returns the empty
record set instead of the page-1 records, refuting the claim that partial
results are returned. -/
theorem C3_counterexample :
    get_pages discTwo = 2
  ∧ addListings (fun t => t) [] [listT1] = [("t1", carT1)]
  ∧ fetch_autotrader_cars (fun t => t) discTwo pagesOne = [] := by decide

/-- C6 (amended): a record whose description contains `"cat s"` (compared
lower-cased) is excluded; a record such that no exclusion keyword occurs in
the space-joined concatenation of its four lower-cased fields is retained.
(Keyword-freedom of each field separately does not suffice: a keyword can
straddle the single-space join, see the counterexample.) -/
theorem C6_writeoff_filter (car : Car) :
    (containsSub "cat s" (strLower car.description) = true →
       is_writeoff car = true)
  ∧ ((∀ k ∈ writeoff_keywords, containsSub k (joinedText car) = false) →
       is_writeoff car = false) := by
  constructor
  · intro h
    have hj : containsSub "cat s" (joinedText car) = true := by
      simp only [containsSub, joinedText, String.data_append]
      simp only [containsSub] at h
      exact hasSub_append_r _ _ _ (hasSub_append_r _ _ _ (hasSub_append_r _ _ _
        (hasSub_append_r _ _ _ (hasSub_append_r _ _ _ (hasSub_append_r _ _ _ h)))))
    simp only [is_writeoff, List.any_eq_true]
    exact ⟨"cat s", by decide, hj⟩
  · intro h
    simp only [is_writeoff, List.any_eq_false]
    intro k hk
    simp [h k hk]

/-- C6 witness: a record whose description says `"Cat S repairable"` is
excluded. -/
theorem C6_writeoff_filter_w : is_writeoff cwCar = true :=
  (C6_writeoff_filter cwCar).1 (by decide)

/-- C6 counterexample: the description `"my cat"` and attention grabber
`"sits"` contain no exclusion keyword field-by-field, yet the space-joined
text contains `"cat s"`, so the filter excludes the record — refuting the
claim that keyword-free fields are always retained. -/
theorem C6_counterexample :
    noKeywordInFields cexCar = true ∧ is_writeoff cexCar = true := by decide

/-- C7: the fetch loop iterates at most 5 result pages whatever page count
discovery reports, and a failed discovery fetch, a missing pagination
element, or pagination text without any digit each yield exactly 1 page. -/
theorem C7_page_clamp :
    (∀ d : DiscoveryOutcome, (pagesToFetch (get_pages d)).length ≤ 5)
  ∧ get_pages .fetchFail = 1
  ∧ get_pages .noPaginationElem = 1
  ∧ (∀ s : String, regexLastInt s.data = none →
       get_pages (.paginationElem s) = 1) := by
  refine ⟨fun d => ?_, rfl, rfl, fun s h => ?_⟩
  · have hl : (pagesToFetch (get_pages d)).length = min (get_pages d) 5 := by
      simp [pagesToFetch]
    rw [hl]
    exact Nat.min_le_right _ _
  · simp [get_pages, h]

/-- C7 witness: digit-free pagination text falls back to 1 page. -/
theorem C7_page_clamp_w : get_pages (.paginationElem "no digits here") = 1 :=
  C7_page_clamp.2.2.2 "no digits here" (by decide)

/-- C8: the diff `new_cars = current_cars - seen_cars` is the exact set
difference: membership is exactly membership-in-current-and-not-in-seen,
`diff S S = ∅`, and adding one unseen element `x` to the current set makes
the diff exactly `{x}`. -/
theorem C8_diff_exact :
    (∀ current seen : Finset String, ∀ x,
       x ∈ diff current seen ↔ x ∈ current ∧ x ∉ seen)
  ∧ (∀ s : Finset String, diff s s = ∅)
  ∧ (∀ s : Finset String, ∀ x, x ∉ s → diff (insert x s) s = {x}) := by
  refine ⟨fun c s x => by simp [diff], fun s => Finset.sdiff_self s,
    fun s x hx => ?_⟩
  ext y
  simp only [diff, Finset.mem_sdiff, Finset.mem_insert, Finset.mem_singleton]
  constructor
  · rintro ⟨h1 | h1, h2⟩
    · exact h1
    · exact absurd h1 h2
  · rintro rfl
    exact ⟨Or.inl rfl, hx⟩

/-- C8 witness: `diff ({"a","b"}, {"b"}) = {"a"}` via the singleton law. -/
theorem C8_diff_exact_w : diff (insert "a" {"b"}) {"b"} = {"a"} :=
  C8_diff_exact.2.2 {"b"} "a" (by decide)

/-- C9: saving any identifier set and loading it back yields the same set
(round trip through the `car_ids` array of the state file), when the write
succeeds. -/
theorem C9_save_load_roundtrip (ids : Finset String) (fs : FileState) :
    load_seen_cars (save_seen_cars true ids fs) = ids := by
  simp [save_seen_cars, load_seen_cars, finsetSorted_toFinset]

/-- C10: the summary returned by `main` has `ok = True` unconditionally,
whatever the fetch, notification and persistence outcomes were. -/
theorem C10_summary_ok_unconditional (inp : RunInput) :
    (main inp).summary.ok = true := rfl

/-- C1 (amended): unset or empty `BOT_TOKEN`/`CHAT_ID` does not abort the
run: the configuration error is raised only inside `notify` (so only on
runs with new cars) and is caught by `main`'s handler.  No message is
dispatched, yet the run still produces its summary (with `ok = True`) and
still persists exactly as a well-configured run would; when there are new
cars the notification step records a caught failure. -/
theorem C1_config_not_fatal (inp : RunInput)
    (hcfg : (falsy inp.botToken || falsy inp.chatId) = true) :
    (main inp).sent = []
  ∧ (main inp).summary.ok = true
  ∧ (main inp).finalFile =
      (if currentOf inp = ∅ then inp.fileSt
       else save_seen_cars inp.writeOk (currentOf inp) inp.fileSt)
  ∧ (diff (currentOf inp) (load_seen_cars inp.fileSt) ≠ ∅ →
       (main inp).notifyFailed = true) := by
  refine ⟨?_, rfl, rfl, ?_⟩
  · by_cases hE : diff (currentOf inp) (load_seen_cars inp.fileSt) = ∅
    · simp [main, hE]
    · simp only [main, hE, if_false]
      exact (sendLoop_badcfg inp.botToken inp.chatId inp.transportOk hcfg _ 0).1
  · intro hE
    have hcard : (diff (currentOf inp) (load_seen_cars inp.fileSt)).card ≠ 0 :=
      fun h => hE (Finset.card_eq_zero.mp h)
    have hmsgs := format_ne_nil (diff (currentOf inp) (load_seen_cars inp.fileSt))
      (dictGet (fetch_autotrader_cars inp.hashFn inp.discovery inp.pages))
      inp.make inp.model hcard
    have hsl := (sendLoop_badcfg inp.botToken inp.chatId inp.transportOk hcfg
      (format_car_notification (diff (currentOf inp) (load_seen_cars inp.fileSt))
        (dictGet (fetch_autotrader_cars inp.hashFn inp.discovery inp.pages))
        inp.make inp.model) 0).2
    simp only [main, hE, if_false]
    simp only [Bool.not_eq_true']
    exact Bool.eq_false_iff.mpr (fun h2 => hmsgs (hsl.mp h2))

/-- C1 witness: the concrete credential-less run dispatches nothing. -/
theorem C1_config_not_fatal_w : (main inpC1).sent = [] :=
  (C1_config_not_fatal inpC1 (by decide)).1

/-- C1 counterexample: with `BOT_TOKEN` unset the run does not fail at
startup: it fetches, persists the scraped id, and returns a summary with
`ok = True` — refuting the claim of a fatal, immediate configuration error
with no partial run. -/
theorem C1_counterexample :
    falsy inpC1.botToken = true
  ∧ (main inpC1).summary.ok = true
  ∧ (main inpC1).finalFile = some (.parsed ⟨["t1"]⟩)
  ∧ (main inpC1).sent = [] := by decide

/-- C2 (amended): a failed notification dispatch is caught by `main` and
does not abort persistence: whenever the current record set is nonempty and
the write succeeds, the state file is overwritten with exactly the current
run's identifiers even though the notify step failed. -/
theorem C2_notify_failure_still_persists (inp : RunInput)
    (_hnf : (main inp).notifyFailed = true) (hw : inp.writeOk = true)
    (hc : currentOf inp ≠ ∅) :
    (main inp).finalFile = some (.parsed ⟨finsetSorted (currentOf inp)⟩) := by
  simp [main, hc, save_seen_cars, hw]

/-- C2 witness: the concrete failing-transport run still writes the file. -/
theorem C2_notify_failure_still_persists_w :
    (main inpC2).finalFile = some (.parsed ⟨finsetSorted (currentOf inpC2)⟩) :=
  C2_notify_failure_still_persists inpC2 (by decide) (by decide) (by decide)

/-- C2 counterexample: a run whose only dispatch fails nevertheless
overwrites the (previously absent) state file with the scraped id —
refuting the claim that a notify failure aborts before persistence. -/
theorem C2_counterexample :
    (main inpC2).notifyFailed = true
  ∧ inpC2.fileSt = none
  ∧ (main inpC2).finalFile = some (.parsed ⟨["t1"]⟩) := by decide

/-- C4 (amended): at run end the stored set is replaced wholesale by the
current run's key set — but only when that key set is nonempty (and the
write succeeds); a run that scraped zero listings leaves the prior state
file untouched instead of clearing it. -/
theorem C4_persist_wholesale (inp : RunInput) :
    (currentOf inp ≠ ∅ → inp.writeOk = true →
       load_seen_cars (main inp).finalFile = currentOf inp)
  ∧ (currentOf inp = ∅ → (main inp).finalFile = inp.fileSt) := by
  constructor
  · intro hc hw
    simp [main, hc, save_seen_cars, hw, load_seen_cars, finsetSorted_toFinset]
  · intro hc
    simp [main, hc]

/-- C4 witness: the concrete one-listing run ends with the stored set equal
to the scraped key set. -/
theorem C4_persist_wholesale_w :
    load_seen_cars (main inpC2).finalFile = currentOf inpC2 :=
  (C4_persist_wholesale inpC2).1 (by decide) (by decide)

/-- C4 counterexample: a run that scraped zero listings keeps the prior
`["old"]` state file — the stored identifier set does not equal the (empty)
set of identifiers scraped this run, refuting the "including zero listings"
part of the claim. -/
theorem C4_counterexample :
    currentOf inpC4 = ∅
  ∧ (main inpC4).finalFile = some (.parsed ⟨["old"]⟩)
  ∧ ¬ load_seen_cars (main inpC4).finalFile = (∅ : Finset String) := by decide

/-- C5 (amended): whenever the formatted content exceeds 4000 characters
the formatter returns more than one message — unconditionally; and if
moreover the header and footer each fit in 4000 characters and every
record block prefixed by a continued header (with index at most the id
count) fits in 4000 characters, then every returned message is at most
4000 characters and the concatenation of all messages contains every
input record's title at least once.  (Without the block-size bound a
single oversized record makes a message exceed the limit — a sealed
continued message is never re-split — and a title can also reappear
inside another record's text, so the original per-message bound and
"exactly once" fail: see the counterexample.) -/
theorem C5_format_batches (new_ids : Finset String)
    (lookup : String → Option Car) (make mdl : String) :
    (4000 < (concatMsgs (format_car_notification new_ids lookup make mdl)).length →
        1 < (format_car_notification new_ids lookup make mdl).length)
  ∧ ((formatHeader new_ids.card make mdl).length ≤ 4000 →
     (formatFooter make mdl).length ≤ 4000 →
     (∀ cid ∈ new_ids, ∀ k, k ≤ new_ids.card →
         (contdHeader k new_ids.card ++ carBlock (carOf lookup cid)).length ≤ 4000) →
     (∀ m ∈ format_car_notification new_ids lookup make mdl, m.length ≤ 4000)
     ∧ (∀ cid ∈ new_ids,
          containsSub (carOf lookup cid).title
            (concatMsgs (format_car_notification new_ids lookup make mdl)) = true)) := by
  by_cases h0 : new_ids.card = 0
  · have hnil : format_car_notification new_ids lookup make mdl = [] := by
      simp [format_car_notification, h0]
    constructor
    · intro habs
      rw [hnil] at habs
      exact absurd habs (by decide)
    · intro _hh _hf _hb
      constructor
      · intro m hm
        rw [hnil] at hm
        exact absurd hm (List.not_mem_nil m)
      · intro cid hcid
        rw [Finset.card_eq_zero.mp h0] at hcid
        exact absurd hcid (Finset.not_mem_empty cid)
  · have hfmt : format_car_notification new_ids lookup make mdl =
        formatFinish
          (formatLoop lookup new_ids.card (finsetSorted new_ids)
            (formatHeader new_ids.card make mdl) 0 [])
          (formatFooter make mdl) := by
      simp [format_car_notification, h0]
    constructor
    · intro hlong
      rw [hfmt] at hlong ⊢
      exact formatFinish_two _ _ hlong
    · intro hh hf hb
      have hcount0 : 0 + (finsetSorted new_ids).length ≤ new_ids.card := by
        simp [length_finsetSorted]
      have hbl : ∀ cid ∈ finsetSorted new_ids, ∀ k, k ≤ new_ids.card →
          (contdHeader k new_ids.card ++ carBlock (carOf lookup cid)).length ≤ 4000 := by
        intro cid hcid k hk
        exact hb cid ((mem_finsetSorted new_ids cid).mp hcid) k hk
      have hbnd := formatLoop_bounded lookup new_ids.card (finsetSorted new_ids)
        (formatHeader new_ids.card make mdl) 0 []
        (fun m hm => absurd hm (List.not_mem_nil m)) hh hcount0 hbl
      constructor
      · intro m hm
        rw [hfmt] at hm
        exact formatFinish_bounded _ _ hbnd.1 hbnd.2 hf m hm
      · intro cid hcid
        rw [hfmt]
        have hblk := formatLoop_blocks lookup new_ids.card (finsetSorted new_ids)
          (formatHeader new_ids.card make mdl) 0 [] cid
          ((mem_finsetSorted new_ids cid).mpr hcid)
        show hasSub (carOf lookup cid).title.data
          (concatMsgs (formatFinish
            (formatLoop lookup new_ids.card (finsetSorted new_ids)
              (formatHeader new_ids.card make mdl) 0 [])
            (formatFooter make mdl))).data = true
        rw [concatMsgs_formatFinish]
        have h1 :
            (concatMsgs (formatLoop lookup new_ids.card (finsetSorted new_ids)
                (formatHeader new_ids.card make mdl) 0 []).1 ++
              ((formatLoop lookup new_ids.card (finsetSorted new_ids)
                (formatHeader new_ids.card make mdl) 0 []).2.1 ++
                formatFooter make mdl)).data
            = (concatMsgs (formatLoop lookup new_ids.card (finsetSorted new_ids)
                (formatHeader new_ids.card make mdl) 0 []).1 ++
              (formatLoop lookup new_ids.card (finsetSorted new_ids)
                (formatHeader new_ids.card make mdl) 0 []).2.1).data ++
              (formatFooter make mdl).data := by
          simp [String.data_append, List.append_assoc]
        rw [h1]
        exact hasSub_trans _ _ _ (hasSub_title_carBlock (carOf lookup cid))
          (hasSub_append_r _ _ _ hblk)

/-- C5 witness: three records of about 1460 characters each overflow one
4000-character message (total content exceeds 4000), so the formatter
splits the batch into more than one message; and since this run also
satisfies the header/footer/block bounds, the concatenated output
contains the record title `"p"`. -/
theorem C5_format_batches_w :
    1 < (format_car_notification cw5Ids cw5Lookup "BMW" "i3").length
  ∧ containsSub (carOf cw5Lookup "p").title
      (concatMsgs (format_car_notification cw5Ids cw5Lookup "BMW" "i3")) = true :=
  ⟨(C5_format_batches cw5Ids cw5Lookup "BMW" "i3").1 cw5_content_long,
   ((C5_format_batches cw5Ids cw5Lookup "BMW" "i3").2 (by decide) (by decide)
      cw5_hb).2 "p" (by decide)⟩

/-- C5 counterexample: one record whose description is 4200 characters of
`a` and whose title is `"aaa"`.  The formatted content exceeds 4000
characters, yet the second returned message is 4286 characters long (well
above "~4000", and above Telegram's 4096 hard limit), and the record's
title occurs at least twice in the concatenated output — refuting both the
per-message bound and the exactly-once containment of the claim. -/
theorem C5_counterexample :
    4000 < (concatMsgs (format_car_notification cex5Ids cex5Lookup "BMW" "i3")).length
  ∧ 4096 <
      ((format_car_notification cex5Ids cex5Lookup "BMW" "i3").getD 1 "").length
  ∧ countOccs "aaa".data
      (concatMsgs (format_car_notification cex5Ids cex5Lookup "BMW" "i3")).data
      ≠ 1 := by
  refine ⟨?_, cex5_msgs_long, ?_⟩
  · rw [cex5_format_eq]
    simp only [concatMsgs, String.length_append, String.append_empty]
    rw [cex5_block_len]
    omega
  · have := cex5_title_twice
    omega

end CheckCars
